import Mathlib

/-!
# Verification of the QRIS bulk-card repository core

Shallow embedding of the repository's two core modules:

* `src/utils/qrisParser.ts` — `parseQRIS` / `parseSubTags`, an EMVCo-style
  TLV (tag-length-value) splitter plus field extraction (merchant name,
  amount, NMID fallback chain);
* `src/utils/qrScanner.ts` — `scanQRCode`, a fixed cascade of image
  preprocessing strategies over an underlying bitmap QR decoder (jsQR),
  modelled here with the bitmap decoder as an oracle parameter.

JavaScript semantics that the source relies on are modelled explicitly:
`String.prototype.substr` (with its negative-argument clamping),
`parseInt` (prefix parsing, sign handling, `NaN` as `Option.none`),
object-property truthiness (`undefined` and `""` are both falsy), and
`Number.prototype.toLocaleString('id-ID')` on integers (thousands groups
separated by `"."`).  Strings are treated as lists of characters; the
payloads in question are ASCII.  Because the TLV `while` loop of the source
is not structurally terminating (its cursor may fail to advance), the loop
is embedded as a step function driven by explicit fuel; `none` means the
loop has not finished within the given fuel.
-/

/-! ## JavaScript string and number primitives -/

/-- JS whitespace characters recognised by `parseInt` (the common ones:
space, tab, LF, VT, FF, CR).  Only used on payload characters, which are
ASCII in every behaviour the claims exercise. -/
def isJsWs (c : Char) : Bool :=
  c.toNat = 32 || c.toNat = 9 || c.toNat = 10 || c.toNat = 11 ||
  c.toNat = 12 || c.toNat = 13

/-- Decimal digit `0`–`9`, as in the regex class `[0-9]`. -/
def isDigitCh (c : Char) : Bool :=
  decide (48 ≤ c.toNat) && decide (c.toNat ≤ 57)

/-- Numeric value of a decimal digit string (most significant first). -/
def digitsVal (cs : List Char) : Nat :=
  cs.foldl (fun n c => n * 10 + (c.toNat - 48)) 0

/-- Longest decimal-digit prefix, `none` when it is empty (`parseInt`'s
digit-scanning core for radix 10). -/
def parseDigits (cs : List Char) : Option Nat :=
  match cs.takeWhile isDigitCh with
  | [] => none
  | ds => some (digitsVal ds)

/-- `parseInt(s, 10)`: skip whitespace, optional sign, then the longest
decimal-digit prefix; `none` models `NaN`. -/
def jsParseInt10 (cs : List Char) : Option Int :=
  match cs.dropWhile isJsWs with
  | [] => none
  | c :: rest =>
    if c.toNat = 45 then (parseDigits rest).map (fun n => -(n : Int))
    else if c.toNat = 43 then (parseDigits rest).map (fun n => (n : Int))
    else (parseDigits (c :: rest)).map (fun n => (n : Int))

/-- Hexadecimal digit, as accepted by `parseInt` after a `0x` prefix. -/
def isHexCh (c : Char) : Bool :=
  decide ((48 ≤ c.toNat ∧ c.toNat ≤ 57) ∨ (65 ≤ c.toNat ∧ c.toNat ≤ 70) ∨
    (97 ≤ c.toNat ∧ c.toNat ≤ 102))

/-- Numeric value of one hexadecimal digit. -/
def hexVal (c : Char) : Nat :=
  if c.toNat ≤ 57 then c.toNat - 48
  else if c.toNat ≤ 70 then c.toNat - 55
  else c.toNat - 87

/-- Longest hexadecimal-digit prefix, `none` when empty. -/
def parseHexDigits (cs : List Char) : Option Nat :=
  match cs.takeWhile isHexCh with
  | [] => none
  | ds => some (ds.foldl (fun n c => n * 16 + hexVal c) 0)

/-- Unsigned core of `parseInt(s)` with no radix argument: a `0x`/`0X`
prefix switches to hexadecimal, otherwise decimal. -/
def parseIntCore (cs : List Char) : Option Nat :=
  match cs with
  | c0 :: c1 :: rest =>
    if c0.toNat = 48 ∧ (c1.toNat = 120 ∨ c1.toNat = 88) then parseHexDigits rest
    else parseDigits cs
  | _ => parseDigits cs

/-- `parseInt(s)` with no radix argument, as used on the tag-54 amount. -/
def jsParseIntNoRadix (cs : List Char) : Option Int :=
  match cs.dropWhile isJsWs with
  | [] => none
  | c :: rest =>
    if c.toNat = 45 then (parseIntCore rest).map (fun n => -(n : Int))
    else if c.toNat = 43 then (parseIntCore rest).map (fun n => (n : Int))
    else (parseIntCore (c :: rest)).map (fun n => (n : Int))

/-- `String.prototype.substr(start, length)`: a non-positive `length`
yields `""`; a negative `start` counts from the end of the string, clamped
at its beginning. -/
def jsSubstr (cs : List Char) (start length : Int) : List Char :=
  if length ≤ 0 then []
  else
    let s : Nat := if start < 0 then (Int.ofNat cs.length + start).toNat else start.toNat
    (cs.drop s).take length.toNat

/-- Insert groups of three digits from the right; the input is the reversed
digit list. -/
def group3 : List Char → List Char
  | [] => []
  | [a] => [a]
  | [a, b] => [a, b]
  | [a, b, c] => [a, b, c]
  | a :: b :: c :: d :: rest => a :: b :: c :: '.' :: group3 (d :: rest)

/-- `Number.prototype.toLocaleString('id-ID')` on a non-negative integer:
thousands groups separated by `"."`. -/
def groupThousandsRepr (n : Nat) : String :=
  String.mk ((group3 (Nat.repr n).data.reverse).reverse)

/-- `('Rp. ' +) x.toLocaleString('id-ID')` where `x` came from `parseInt`:
`NaN` renders as `"NaN"`, negative integers with a leading `"-"`. -/
def toLocaleStringID : Option Int → String
  | none => "NaN"
  | some n => if n < 0 then "-" ++ groupThousandsRepr n.natAbs else groupThousandsRepr n.toNat

/-! ## The TLV decoding loop (`parseQRIS` / `parseSubTags` body) -/

/-- JS-object write `tags[id] = value`: replace in place when the key is
already present, append otherwise (insertion order preserved). -/
def updateAssoc : List (String × String) → String → String → List (String × String)
  | [], k, v => [(k, v)]
  | q :: rest, k, v => if q.1 = k then (k, v) :: rest else q :: updateAssoc rest k v

/-- JS-object read `tags[id]`; `none` models `undefined`. -/
def tagVal : List (String × String) → String → Option String
  | [], _ => none
  | q :: rest, k => if q.1 = k then some q.2 else tagVal rest k

/-- JS truthiness of `tags[id]`: `undefined` and `""` are falsy. -/
def jsTruthy : Option String → Bool
  | none => false
  | some s => !(s = "" : Bool)

/-- `tags[id]` filtered through truthiness: the value when it is present
and non-empty, `none` otherwise. -/
def jsGetTruthy (tags : List (String × String)) (k : String) : Option String :=
  match tagVal tags k with
  | some s => if s = "" then none else some s
  | none => none

/-- State of the TLV `while` loop: the cursor (an `Int`, since the source
can drive it negative via negative parsed lengths) and the accumulated
tag map. -/
structure TlvState where
  index : Int
  tags : List (String × String)
deriving DecidableEq

/-- One iteration of the loop

```
while (index < payload.length) {
  const id = payload.substr(index, 2);
  const lenStr = payload.substr(index + 2, 2);
  const length = parseInt(lenStr, 10);
  if (isNaN(length)) break;
  const value = payload.substr(index + 4, length);
  tags[id] = value;
  index += 4 + length;
}
```

`none` means the loop has exited (either the cursor reached the end or the
length field parsed to `NaN`). -/
def tlvStep (p : List Char) (s : TlvState) : Option TlvState :=
  if s.index < (p.length : Int) then
    match jsParseInt10 (jsSubstr p (s.index + 2) 2) with
    | none => none
    | some length =>
      some { index := s.index + 4 + length
           , tags := updateAssoc s.tags (String.mk (jsSubstr p s.index 2))
               (String.mk (jsSubstr p (s.index + 4) length)) }
  else none

/-- Run the loop with explicit fuel; `none` means the loop has not exited
within `fuel` iterations (in particular a diverging run is `none` for every
fuel). -/
def tlvRun (p : List Char) : Nat → TlvState → Option (List (String × String))
  | 0, _ => none
  | n + 1, s =>
    match tlvStep p s with
    | none => some s.tags
    | some s' => tlvRun p n s'

/-- The payload's TLV loop, started from the source's initial state, never
exits: the embedding of an infinite `while` loop in the source. -/
def tlvDiverges (p : String) : Prop :=
  ∀ n : Nat, tlvRun p.data n ⟨0, []⟩ = none

example : tlvRun "5910MERCHANT A".data 9 ⟨0, []⟩ = some [("59", "MERCHANT A")] := by decide
example : jsParseInt10 "-4".data = some (-4) := by decide
example : jsParseInt10 "5A".data = some 5 := by decide
example : jsParseInt10 "A5".data = none := by decide
example : jsSubstr "AB-4".data 4 (-4) = [] := by decide

/-! ## Field extraction (`parseQRIS` after the loop) -/

/-- Output record of `parseQRIS` (the `QRISData` interface). -/
structure QRISData where
  merchantName : Option String := none
  nmid : Option String := none
  amount : Option String := none
  raw : Option String := none
deriving DecidableEq

/-- Does the string start with the literal `"ID"`
(`subTags['07'].startsWith('ID')`)? -/
def startsWithID (s : String) : Bool :=
  match s.data with
  | 'I' :: 'D' :: _ => true
  | _ => false

/-- A match of the regex `/ID[0-9]{8,15}/` anchored at the head of the
list: `"ID"`, then greedily up to 15 decimal digits, at least 8. -/
def idMatchHere (cs : List Char) : Option String :=
  match cs with
  | 'I' :: 'D' :: rest =>
    let ds := rest.takeWhile isDigitCh
    if 8 ≤ ds.length then some (String.mk ('I' :: 'D' :: ds.take 15)) else none
  | _ => none

/-- `payload.match(/ID[0-9]{8,15}/)`: the leftmost match, greedy in its
digit count. -/
def firstIdMatch : List Char → Option String
  | [] => none
  | c :: rest =>
    match idMatchHere (c :: rest) with
    | some m => some m
    | none => firstIdMatch rest

/-- NMID strategy 1 (tag `51`): when `tags['51']` is truthy, decode it with
`parseSubTags` and take sub-tag `02` when truthy, else sub-tag `03` when
truthy.  The outer `Option` is the fuel monad of the nested TLV loop
(`none` = the nested loop did not exit); the inner `Option String` is the
resolved-or-not NMID. -/
def nmidStrat1 (fuel : Nat) (tags : List (String × String)) : Option (Option String) :=
  match tagVal tags "51" with
  | none => some none
  | some v =>
    if v = "" then some none
    else
      match tlvRun v.data fuel ⟨0, []⟩ with
      | none => none
      | some sub =>
        match jsGetTruthy sub "02" with
        | some x => some (some x)
        | none =>
          match jsGetTruthy sub "03" with
          | some x => some (some x)
          | none => some none

/-- NMID strategy 2 (tag `62`): when `tags['62']` is truthy, decode it and
take sub-tag `07` when it is truthy and starts with `"ID"`. -/
def nmidStrat2 (fuel : Nat) (tags : List (String × String)) : Option (Option String) :=
  match tagVal tags "62" with
  | none => some none
  | some v =>
    if v = "" then some none
    else
      match tlvRun v.data fuel ⟨0, []⟩ with
      | none => none
      | some sub =>
        match jsGetTruthy sub "07" with
        | some x => some (if startsWithID x then some x else none)
        | none => some none

/-- The full NMID fallback of `parseQRIS`: strategy 1, then (only when
still unset) strategy 2, then (only when still unset) the raw-payload
regex. -/
def nmidOf (fuel : Nat) (p : String) (tags : List (String × String)) :
    Option (Option String) :=
  match nmidStrat1 fuel tags with
  | none => none
  | some (some v) => some (some v)
  | some none =>
    match nmidStrat2 fuel tags with
    | none => none
    | some (some v) => some (some v)
    | some none => some (firstIdMatch p.data)

/-- The straight-line tail of `parseQRIS` applied to the decoded top-level
tags: tag `59` into `merchantName` when truthy, tag `54` through
`parseInt`/`toLocaleString('id-ID')` into `amount` when truthy, and the
NMID fallback chain. -/
def extractFields (fuel : Nat) (p : String) (tags : List (String × String)) :
    Option QRISData :=
  match nmidOf fuel p tags with
  | none => none
  | some nm =>
    some { raw := some p
         , merchantName := jsGetTruthy tags "59"
         , amount :=
             match tagVal tags "54" with
             | some v =>
               if v = "" then none
               else some ("Rp. " ++ toLocaleStringID (jsParseIntNoRadix v.data))
             | none => none
         , nmid := nm }

/-- `parseQRIS`, fuelled: run the top-level TLV loop, then extract fields
(whose NMID strategies may run nested TLV loops on the same fuel).  `none`
means some loop in the source would not have exited within `fuel`
iterations; any terminating run of the source is `some` for every
sufficiently large fuel. -/
def parseQRISFuel (fuel : Nat) (p : String) : Option QRISData :=
  match tlvRun p.data fuel ⟨0, []⟩ with
  | none => none
  | some tags => extractFields fuel p tags

example : parseQRISFuel 9 "5910MERCHANT A" =
    some { raw := some "5910MERCHANT A", merchantName := some "MERCHANT A" } := by decide
example : parseQRISFuel 9 "5406150000" =
    some { raw := some "5406150000", amount := some "Rp. 150.000" } := by decide
example : parseQRISFuel 9 "9911ID987654321" =
    some { raw := some "9911ID987654321", nmid := some "ID987654321" } := by decide
example : parseQRISFuel 9 "5403ABC" =
    some { raw := some "5403ABC", amount := some "Rp. NaN" } := by decide

/-! ## The multi-strategy scanner (`scanQRCode`)

The underlying bitmap decoder (`jsQR` on a preprocessed canvas) is
modelled as an oracle `Attempt → Option String`: for each preprocessing
attempt, either the payload it would decode or `none`.  `scanQRCode` is
embedded with exactly the source's control flow: a sequence of
early-returning blocks and `for` loops. -/

/-- One decode attempt of the cascade, identified by the preprocessing
applied before calling the bitmap decoder. -/
inductive Attempt where
  | direct : Attempt
  | resized : Nat → Attempt
  | centerCrop : Nat → Nat → Nat → Nat → Attempt
  | preprocessed : Attempt
  | binarized : Nat → Attempt
  | resizedPre : Nat → Attempt
deriving DecidableEq

/-- The `ScanResult` interface. -/
structure ScanResult where
  success : Bool
  data : Option String
  strategy : String
deriving DecidableEq

/-- One of the source's inner scan functions (`scanDirect`, `scanResized`,
…): ask the oracle and tag the result with the function's base strategy
name. -/
def runAttempt (o : Attempt → Option String) (a : Attempt) (base : String) : ScanResult :=
  match o a with
  | some d => { success := true, data := some d, strategy := base }
  | none => { success := false, data := none, strategy := base }

/-- A `for`-loop of `scanQRCode`: try each parameter in order, and on the
first success return the result relabelled with the loop's detailed
strategy string. -/
def tryEach {α : Type} (o : Attempt → Option String) (mk : α → Attempt)
    (base : String) (label : α → String) : List α → Option ScanResult
  | [] => none
  | x :: rest =>
    let r := runAttempt o (mk x) base
    if r.success then some { r with strategy := label x }
    else tryEach o mk base label rest

/-- `const resizeSizes = [500, 600, 400, 800, 300, 1000, 1200]`. -/
def resizeSizes : List Nat := [500, 600, 400, 800, 300, 1000, 1200]

/-- `const cropPercentages = [...]` (x, y, w, h percentages). -/
def cropPercentages : List (Nat × Nat × Nat × Nat) :=
  [(10, 20, 80, 60), (15, 25, 70, 50), (5, 15, 90, 70), (20, 30, 60, 40), (0, 10, 100, 80)]

/-- The binarization thresholds of strategy 5. -/
def binarizeThresholds : List Nat := [128, 100, 80, 150, 180, 60, 200]

/-- The sizes of strategy 6 (resize + preprocessing). -/
def resizePreSizes : List Nat := [500, 600, 400]

/-- `scanQRCode`, with the source's strategy blocks in source order. -/
def scanQRCode (o : Attempt → Option String) : ScanResult :=
  let r1 := runAttempt o .direct "direct"
  if r1.success then { r1 with strategy := "direct" }
  else
    match tryEach o Attempt.resized "resized" (fun s => "resized-" ++ toString s) resizeSizes with
    | some r => r
    | none =>
      match tryEach o (fun c => Attempt.centerCrop c.1 c.2.1 c.2.2.1 c.2.2.2) "center-crop"
          (fun _ => "center-crop") cropPercentages with
      | some r => r
      | none =>
        let r4 := runAttempt o .preprocessed "preprocessed"
        if r4.success then { r4 with strategy := "preprocessed" }
        else
          match tryEach o Attempt.binarized "binarized"
              (fun t => "binarized-" ++ toString t) binarizeThresholds with
          | some r => r
          | none =>
            match tryEach o Attempt.resizedPre "resized-preprocessed"
                (fun s => "resized-preprocessed-" ++ toString s) resizePreSizes with
            | some r => r
            | none => { success := false, data := none, strategy := "none" }

/-! ### Specification-side view of the cascade (for the ordering claims) -/

/-- The strategy identifier `scanQRCode` reports for a success at a given
attempt. -/
def strategyId : Attempt → String
  | .direct => "direct"
  | .resized s => "resized-" ++ toString s
  | .centerCrop _ _ _ _ => "center-crop"
  | .preprocessed => "preprocessed"
  | .binarized t => "binarized-" ++ toString t
  | .resizedPre s => "resized-preprocessed-" ++ toString s

/-- The 24 attempts of the cascade in the exact order the specification
lists them. -/
def attemptOrder : List Attempt :=
  [Attempt.direct] ++ resizeSizes.map Attempt.resized
    ++ cropPercentages.map (fun c => Attempt.centerCrop c.1 c.2.1 c.2.2.1 c.2.2.2)
    ++ [Attempt.preprocessed] ++ binarizeThresholds.map Attempt.binarized
    ++ resizePreSizes.map Attempt.resizedPre

/-- The specification's "first success wins over the ordered attempt list"
contract, written from the spec's words for comparison with `scanQRCode`. -/
def cascadeSpec (o : Attempt → Option String) : ScanResult :=
  match attemptOrder.find? (fun a => (o a).isSome) with
  | some a => { success := true, data := o a, strategy := strategyId a }
  | none => { success := false, data := none, strategy := "none" }

example : attemptOrder.length = 24 := by decide

/-! ### Specification-side view of the NMID fallback chain (claim C1) -/

/-- Written from the specification's fallback-chain wording (§4.2 item 4)
for comparison with the code-derived `parseQRISFuel`: (a) decode tag `51`
as nested TLV and use sub-tag `02` when present (with a non-empty value,
as in the spec's own examples), else sub-tag `03`; (b) otherwise decode
tag `62` and use sub-tag `07` when it starts with `"ID"`; (c) otherwise
the first `/ID[0-9]{8,15}/` match in the raw payload; (d) otherwise unset.
The outer `Option` is fuel exhaustion of a TLV loop, as in
`parseQRISFuel`. -/
def nmidChainSpec (fuel : Nat) (p : String) : Option (Option String) :=
  match tlvRun p.data fuel ⟨0, []⟩ with
  | none => none
  | some tags =>
    match tlvRun ((tagVal tags "51").getD "").data fuel ⟨0, []⟩ with
    | none => none
    | some sub51 =>
      match jsGetTruthy sub51 "02" with
      | some v => some (some v)
      | none =>
        match jsGetTruthy sub51 "03" with
        | some v => some (some v)
        | none =>
          match tlvRun ((tagVal tags "62").getD "").data fuel ⟨0, []⟩ with
          | none => none
          | some sub62 =>
            match jsGetTruthy sub62 "07" with
            | some v => if startsWithID v then some (some v) else some (firstIdMatch p.data)
            | none => some (firstIdMatch p.data)

/-! ### TLV encoding (claim C5) -/

/-- Zero-padded two-digit decimal rendering of a length `n ≤ 99`. -/
def twoDigitLen (n : Nat) : List Char :=
  [Nat.digitChar (n / 10), Nat.digitChar (n % 10)]

/-- Concatenation of `TAG ++ LEN ++ VALUE` blocks for a sequence of
(tag, value) pairs. -/
def encodeTLV : List (String × String) → List Char
  | [] => []
  | (t, v) :: rest => t.data ++ twoDigitLen v.length ++ v.data ++ encodeTLV rest

/-- Well-formedness of a pair sequence for the two-digit TLV format:
2-character tags and values whose lengths fit in two decimal digits. -/
def wfPairs (ps : List (String × String)) : Prop :=
  ∀ q ∈ ps, q.1.length = 2 ∧ q.2.length ≤ 99

/-- The tag map induced by a pair sequence under JS-object writes. -/
def buildTags (ps : List (String × String)) : List (String × String) :=
  ps.foldl (fun a q => updateAssoc a q.1 q.2) []

/-- The value of the last occurrence of a tag in a pair sequence. -/
def lookupLast : List (String × String) → String → Option String
  | [], _ => none
  | q :: rest, t =>
    match lookupLast rest t with
    | some v => some v
    | none => if q.1 = t then some q.2 else none


/-! ## Lemmas about the scanner cascade -/

/-- Sequential evaluation of a list of attempts with an explicit
continuation: the normal form shared by `scanQRCode`'s block structure and
`cascadeSpec`'s `find?`. -/
def cascadeChain (o : Attempt → Option String) : List Attempt → ScanResult → ScanResult
  | [], k => k
  | a :: rest, k =>
    match o a with
    | some d => { success := true, data := some d, strategy := strategyId a }
    | none => cascadeChain o rest k

/-- `cascadeChain` splits over list append. -/
theorem cascadeChain_append (o : Attempt → Option String) (l₁ l₂ : List Attempt)
    (k : ScanResult) :
    cascadeChain o (l₁ ++ l₂) k = cascadeChain o l₁ (cascadeChain o l₂ k) := by
  induction l₁ with
  | nil => rfl
  | cons a rest ih => cases h : o a <;> simp [cascadeChain, h, ih]

/-- A `for`-loop of `scanQRCode`, together with its fall-through
continuation, evaluates its mapped attempt list sequentially, provided the
loop's success label agrees with `strategyId`. -/
theorem tryEach_cascade {α : Type} (o : Attempt → Option String) (mk : α → Attempt)
    (base : String) (label : α → String) (hl : ∀ x, label x = strategyId (mk x))
    (l : List α) (k : ScanResult) :
    (match tryEach o mk base label l with
     | some r => r
     | none => k) = cascadeChain o (l.map mk) k := by
  induction l with
  | nil => rfl
  | cons x rest ih =>
    cases h : o (mk x) <;>
      simp [tryEach, runAttempt, h, cascadeChain, List.map, hl, ih]

/-- `scanQRCode` implements exactly the specification's ordered
first-success cascade over `attemptOrder`. -/
theorem scan_eq_cascade (o : Attempt → Option String) : scanQRCode o = cascadeSpec o := by
  have hspec : cascadeSpec o
      = cascadeChain o attemptOrder { success := false, data := none, strategy := "none" } := by
    unfold cascadeSpec
    generalize attemptOrder = l
    induction l with
    | nil => rfl
    | cons a rest ih => cases h : o a <;> simp [List.find?, h, cascadeChain, ih]
  rw [hspec]
  unfold scanQRCode attemptOrder
  rw [cascadeChain_append, cascadeChain_append, cascadeChain_append, cascadeChain_append,
    cascadeChain_append]
  rw [tryEach_cascade o Attempt.resized "resized"
      (fun s => "resized-" ++ toString s) (fun _ => rfl),
    tryEach_cascade o
      (fun c : Nat × Nat × Nat × Nat => Attempt.centerCrop c.1 c.2.1 c.2.2.1 c.2.2.2)
      "center-crop" (fun _ => "center-crop") (fun _ => rfl),
    tryEach_cascade o Attempt.binarized "binarized"
      (fun t => "binarized-" ++ toString t) (fun _ => rfl),
    tryEach_cascade o Attempt.resizedPre "resized-preprocessed"
      (fun s => "resized-preprocessed-" ++ toString s) (fun _ => rfl)]
  cases h1 : o Attempt.direct <;> cases h4 : o Attempt.preprocessed <;>
    simp [runAttempt, h1, h4, cascadeChain, strategyId]

/-! ## Claim C2: exact strategy order, first success wins -/

/-- C2: modelling the bitmap decoder as an oracle, `scanQRCode` equals the
first-success cascade over `attemptOrder`, which is exactly the claimed
sequence: direct; resized 500, 600, 400, 800, 300, 1000, 1200; the five
center-crop windows; preprocessed; binarized 128, 100, 80, 150, 180, 60,
200; resized+preprocessed 500, 600, 400.  The result is determined by the
first succeeding attempt in that order, so no later attempt can influence
it. -/
theorem scanQRCode_strategy_order :
    (∀ o : Attempt → Option String, scanQRCode o = cascadeSpec o)
    ∧ attemptOrder =
      [Attempt.direct,
       Attempt.resized 500, Attempt.resized 600, Attempt.resized 400, Attempt.resized 800,
       Attempt.resized 300, Attempt.resized 1000, Attempt.resized 1200,
       Attempt.centerCrop 10 20 80 60, Attempt.centerCrop 15 25 70 50,
       Attempt.centerCrop 5 15 90 70, Attempt.centerCrop 20 30 60 40,
       Attempt.centerCrop 0 10 100 80,
       Attempt.preprocessed,
       Attempt.binarized 128, Attempt.binarized 100, Attempt.binarized 80,
       Attempt.binarized 150, Attempt.binarized 180, Attempt.binarized 60,
       Attempt.binarized 200,
       Attempt.resizedPre 500, Attempt.resizedPre 600, Attempt.resizedPre 400] :=
  ⟨scan_eq_cascade, by decide⟩

/-! ## Claim C7: exhaustion result -/

/-- C7: when the oracle succeeds on none of the cascade's attempts,
`scanQRCode` returns exactly `{ success := false, data := null,
strategy := 'none' }`. -/
theorem scanQRCode_exhaustion (o : Attempt → Option String)
    (h : ∀ a ∈ attemptOrder, o a = none) :
    scanQRCode o = { success := false, data := none, strategy := "none" } := by
  rw [scan_eq_cascade]
  unfold cascadeSpec
  have hf : attemptOrder.find? (fun a => (o a).isSome) = none := by
    rw [List.find?_eq_none]
    intro a ha
    simp [h a ha]
  rw [hf]

/-- Witness for C7 at the everywhere-failing oracle. -/
theorem scanQRCode_exhaustion_witness :
    scanQRCode (fun _ => none) = { success := false, data := none, strategy := "none" } :=
  scanQRCode_exhaustion (fun _ => none) (fun _ _ => rfl)

/-! ## Claim C8: strategy identifiers -/

/-- An oracle that succeeds only on the first center-crop window. -/
def cropOnlyOracleA : Attempt → Option String :=
  fun a => if a = Attempt.centerCrop 10 20 80 60 then some "QRDATA" else none

/-- An oracle that succeeds only on the fourth center-crop window. -/
def cropOnlyOracleB : Attempt → Option String :=
  fun a => if a = Attempt.centerCrop 20 30 60 40 then some "QRDATA" else none

/-- Counterexample to C8: two scans that succeed at *different* center-crop
windows return identical results, with the undifferentiated strategy string
`"center-crop"`; the result therefore cannot identify which of the five
crop windows produced the hit. -/
theorem scanQRCode_crop_window_not_identified :
    scanQRCode cropOnlyOracleA = { success := true, data := some "QRDATA", strategy := "center-crop" }
    ∧ scanQRCode cropOnlyOracleB = { success := true, data := some "QRDATA", strategy := "center-crop" }
    ∧ scanQRCode cropOnlyOracleA = scanQRCode cropOnlyOracleB := by
  refine ⟨by decide, by decide, by decide⟩

/-- C8 as amended: the reported strategy string of a successful scan is
`strategyId` of the first succeeding attempt, and that identifier encodes
the parameter for the resized, binarized and resized-preprocessed
strategies — but every center-crop window reports the same bare
`"center-crop"`. -/
theorem scanQRCode_strategy_detail :
    (∀ (o : Attempt → Option String) (a : Attempt),
        attemptOrder.find? (fun b => (o b).isSome) = some a →
        (scanQRCode o).strategy = strategyId a)
    ∧ (∀ s, strategyId (Attempt.resized s) = "resized-" ++ toString s)
    ∧ (∀ t, strategyId (Attempt.binarized t) = "binarized-" ++ toString t)
    ∧ (∀ s, strategyId (Attempt.resizedPre s) = "resized-preprocessed-" ++ toString s)
    ∧ (∀ x y w h, strategyId (Attempt.centerCrop x y w h) = "center-crop") := by
  refine ⟨?_, fun _ => rfl, fun _ => rfl, fun _ => rfl, fun _ _ _ _ => rfl⟩
  intro o a h
  rw [scan_eq_cascade]
  unfold cascadeSpec
  rw [h]

/-- Witness for the amended C8 at a concrete crop-window success. -/
theorem scanQRCode_strategy_detail_witness :
    (scanQRCode cropOnlyOracleA).strategy = strategyId (Attempt.centerCrop 10 20 80 60) :=
  scanQRCode_strategy_detail.1 cropOnlyOracleA (Attempt.centerCrop 10 20 80 60) (by decide)

/-! ## Claim C6: the TLV loop does not always terminate -/

/-- A state that steps to itself loops forever: no fuel makes the run
exit. -/
theorem tlvRun_stuck (p : List Char) (s : TlvState) (h : tlvStep p s = some s) :
    ∀ n, tlvRun p n s = none := by
  intro n
  induction n with
  | zero => rfl
  | succ n ih =>
    simp only [tlvRun, h]
    exact ih

/-- Counterexample to C6: on the payload `"AB-4"` the length field `"-4"`
parses (via `parseInt`) to `-4`, the cursor advances by `4 + (-4) = 0`, and
the `while` loop of `parseQRIS` never exits; consequently `parseQRIS`
itself never returns.  This refutes "the TLV decoding loop never throws:
it terminates normally … or stops scanning early" for every payload. -/
theorem parseQRIS_loop_diverges :
    tlvDiverges "AB-4" ∧ ∀ n, parseQRISFuel n "AB-4" = none := by
  have hdiv : tlvDiverges "AB-4" := by
    intro n
    cases n with
    | zero => rfl
    | succ n =>
      have h1 : tlvStep "AB-4".data ⟨0, []⟩ = some ⟨0, [("AB", "")]⟩ := by decide
      have h2 : tlvStep "AB-4".data ⟨0, [("AB", "")]⟩ = some ⟨0, [("AB", "")]⟩ := by decide
      simp only [tlvRun, h1]
      exact tlvRun_stuck _ _ h2 n
  refine ⟨hdiv, fun n => ?_⟩
  unfold parseQRISFuel
  rw [hdiv n]

/-! ## Claim C9: prefix parsing of malformed length fields -/

/-- `parseInt` on a two-character string whose first character is a decimal
digit and whose second is not yields the leading digit's value. -/
theorem jsParseInt10_digit_nondigit (d c : Char) (hd : isDigitCh d = true)
    (hc : isDigitCh c = false) :
    jsParseInt10 [d, c] = some ((d.toNat - 48 : Nat) : Int) := by
  have h48 : 48 ≤ d.toNat ∧ d.toNat ≤ 57 := by
    simpa [isDigitCh] using hd
  obtain ⟨h1, h2⟩ := h48
  have hws : isJsWs d = false := by
    simp only [isJsWs, Bool.or_eq_false_iff, decide_eq_false_iff_not]
    omega
  have h45 : ¬ d.toNat = 45 := by omega
  have h43 : ¬ d.toNat = 43 := by omega
  simp only [jsParseInt10, List.dropWhile, hws, Bool.false_eq_true, if_neg h45, if_neg h43,
    parseDigits, List.takeWhile, hd, hc, digitsVal, List.foldl, Option.map_some]
  norm_num

/-- C9: a length field made of a decimal digit followed by a non-digit
(e.g. `"5A"`) does not stop the TLV loop: the length is the leading
digit's value, that many characters are consumed as the value, and the
loop continues from the advanced cursor.  Early loop exit at an in-bounds
cursor happens exactly when `parseInt` of the length field is `NaN`. -/
theorem tlv_malformed_length_field :
    (∀ (p : List Char) (i : Int) (tags : List (String × String)) (n : Nat) (d c : Char),
       0 ≤ i → i < (p.length : Int) →
       jsSubstr p (i + 2) 2 = [d, c] → isDigitCh d = true → isDigitCh c = false →
       tlvRun p (n + 1) ⟨i, tags⟩ =
         tlvRun p n ⟨i + 4 + ((d.toNat - 48 : Nat) : Int),
           updateAssoc tags (String.mk (jsSubstr p i 2))
             (String.mk (jsSubstr p (i + 4) ((d.toNat - 48 : Nat) : Int)))⟩)
    ∧ (∀ (p : List Char) (i : Int) (tags : List (String × String)),
        i < (p.length : Int) →
        (tlvStep p ⟨i, tags⟩ = none ↔ jsParseInt10 (jsSubstr p (i + 2) 2) = none)) := by
  constructor
  · intro p i tags n d c h0 hlt hsub hd hc
    have hp := jsParseInt10_digit_nondigit d c hd hc
    simp only [tlvRun, tlvStep, if_pos hlt, hsub, hp]
  · intro p i tags hlt
    unfold tlvStep
    rw [if_pos hlt]
    cases h : jsParseInt10 (jsSubstr p (i + 2) 2) <;> simp [h]

/-- Witness for C9 on the payload `"AA5AXXXXX"`: the length field `"5A"`
is read as length 5, `"XXXXX"` is consumed, and the loop then exits
normally at the end of the payload. -/
theorem tlv_malformed_length_field_witness :
    tlvRun "AA5AXXXXX".data 2 ⟨0, []⟩ = some [("AA", "XXXXX")] := by
  have h := tlv_malformed_length_field.1 "AA5AXXXXX".data 0 [] 1 '5' 'A'
    (by decide) (by decide) (by decide) (by decide) (by decide)
  rw [h]
  decide

/-! ## Claim C5: TLV round-trip -/

/-- `substr` at non-negative arguments is drop-then-take. -/
theorem jsSubstr_ofNat (cs : List Char) (a b : Nat) :
    jsSubstr cs (a : Int) (b : Int) = (cs.drop a).take b := by
  unfold jsSubstr
  split
  · next h =>
    have hb : b = 0 := by omega
    subst hb
    simp
  · next h =>
    have ha : ¬ (a : Int) < 0 := by omega
    simp [ha]

/-- `substr` starting exactly where a prefix ends reads from the suffix. -/
theorem jsSubstr_append_exact (pre post : List Char) (b : Nat) :
    jsSubstr (pre ++ post) ((pre.length : Int)) (b : Int) = post.take b := by
  rw [jsSubstr_ofNat, List.drop_left]

/-- A zero-padded two-digit length renders back through `parseInt`. -/
theorem parseInt_twoDigit : ∀ n : Nat, n ≤ 99 → jsParseInt10 (twoDigitLen n) = some (n : Int) := by
  decide

/-- One loop iteration over a well-formed `TAG ++ LEN ++ VALUE` block
sitting at the cursor: the block is consumed and recorded. -/
theorem tlvStep_block (pre t2 len2 val rest : List Char) (tags0 : List (String × String))
    (ht : t2.length = 2) (hl : len2.length = 2)
    (hn : jsParseInt10 len2 = some (val.length : Int)) :
    tlvStep (pre ++ (t2 ++ (len2 ++ (val ++ rest)))) ⟨(pre.length : Int), tags0⟩
      = some ⟨(pre.length : Int) + 4 + (val.length : Int),
          updateAssoc tags0 (String.mk t2) (String.mk val)⟩ := by
  have hid : jsSubstr (pre ++ (t2 ++ (len2 ++ (val ++ rest)))) ((pre.length : Int)) 2
      = t2 := by
    have h2 := jsSubstr_append_exact pre (t2 ++ (len2 ++ (val ++ rest))) 2
    rw [show ((2 : Nat) : Int) = (2 : Int) from rfl] at h2
    rw [h2, ← ht, List.take_left]
  have hlenstr : jsSubstr (pre ++ (t2 ++ (len2 ++ (val ++ rest)))) ((pre.length : Int) + 2) 2
      = len2 := by
    have hre : pre ++ (t2 ++ (len2 ++ (val ++ rest)))
        = (pre ++ t2) ++ (len2 ++ (val ++ rest)) := by
      simp [List.append_assoc]
    have hcast : (pre.length : Int) + 2 = (((pre ++ t2).length : Nat) : Int) := by
      simp [List.length_append, ht]
    have h2 := jsSubstr_append_exact (pre ++ t2) (len2 ++ (val ++ rest)) 2
    rw [show ((2 : Nat) : Int) = (2 : Int) from rfl] at h2
    rw [hre, hcast, h2, ← hl, List.take_left]
  have hval : jsSubstr (pre ++ (t2 ++ (len2 ++ (val ++ rest)))) ((pre.length : Int) + 4)
      (val.length : Int) = val := by
    have hre : pre ++ (t2 ++ (len2 ++ (val ++ rest)))
        = ((pre ++ t2) ++ len2) ++ (val ++ rest) := by
      simp [List.append_assoc]
    have hcast : (pre.length : Int) + 4 = ((((pre ++ t2) ++ len2).length : Nat) : Int) := by
      push_cast [List.length_append, ht, hl]
      ring
    rw [hre, hcast, jsSubstr_append_exact, List.take_left]
  have hbound : (pre.length : Int) < ((pre ++ (t2 ++ (len2 ++ (val ++ rest)))).length : Int) := by
    push_cast [List.length_append, ht, hl]
    omega
  simp only [tlvStep, hbound, if_pos, hlenstr, hn, hid, hval]

/-- Decoding the encoding of a well-formed pair sequence, placed after any
prefix already consumed, records exactly the sequence's JS-object writes. -/
theorem tlvRun_encode (ps : List (String × String)) :
    ∀ (pre : List Char) (tags0 : List (String × String)), wfPairs ps →
      tlvRun (pre ++ encodeTLV ps) (ps.length + 1) ⟨(pre.length : Int), tags0⟩
        = some (ps.foldl (fun a q => updateAssoc a q.1 q.2) tags0) := by
  induction ps with
  | nil =>
    intro pre tags0 _
    have hstep : tlvStep (pre ++ encodeTLV []) ⟨(pre.length : Int), tags0⟩ = none := by
      unfold tlvStep
      rw [if_neg]
      simp [encodeTLV]
    simp [tlvRun, hstep]
  | cons q ps ih =>
    intro pre tags0 hwf
    obtain ⟨t, v⟩ := q
    obtain ⟨ht2, hv99⟩ := hwf (t, v) (List.mem_cons_self _ _)
    have hwf' : wfPairs ps := fun r hr => hwf r (List.mem_cons_of_mem _ hr)
    have ht2' : t.data.length = 2 := ht2
    have hlen2 : (twoDigitLen v.length).length = 2 := rfl
    have hparse : jsParseInt10 (twoDigitLen v.length) = some ((v.data.length : Nat) : Int) :=
      parseInt_twoDigit v.length hv99
    have hstep := tlvStep_block pre t.data (twoDigitLen v.length) v.data (encodeTLV ps) tags0
      ht2' hlen2 hparse
    have hmkt : String.mk t.data = t := rfl
    have hmkv : String.mk v.data = v := rfl
    have hidx : (pre.length : Int) + 4 + (v.data.length : Int)
        = (((pre ++ (t.data ++ (twoDigitLen v.length ++ v.data))).length : Nat) : Int) := by
      push_cast [List.length_append, ht2', hlen2]
      ring
    simp only [encodeTLV, List.append_assoc, List.length_cons, List.foldl]
    simp only [tlvRun, hstep, hmkt, hmkv]
    rw [hidx]
    have hih := ih (pre ++ (t.data ++ (twoDigitLen v.length ++ v.data)))
      (updateAssoc tags0 t v) hwf'
    simp only [List.append_assoc] at hih
    exact hih

/-- Reading a JS-object after a write: the written key returns the new
value, other keys are unchanged. -/
theorem tagVal_updateAssoc (l : List (String × String)) (k v t : String) :
    tagVal (updateAssoc l k v) t = if k = t then some v else tagVal l t := by
  induction l with
  | nil => simp [updateAssoc, tagVal]
  | cons q rest ih =>
    by_cases h1 : q.1 = k
    · by_cases h2 : k = t
      · simp [updateAssoc, tagVal, h1, h2]
      · have hq : ¬ q.1 = t := by rw [h1]; exact h2
        simp [updateAssoc, tagVal, h1, h2, hq]
    · by_cases h2 : q.1 = t
      · have hk : ¬ k = t := fun hh => h1 (h2.trans hh.symm)
        have htk : ¬ t = k := fun hh => hk hh.symm
        simp [updateAssoc, tagVal, h1, h2, hk, htk]
      · simp [updateAssoc, tagVal, h1, h2, ih]

/-- The tag map built by sequential JS-object writes reads as the last
occurrence of each tag. -/
theorem tagVal_buildTags_aux (ps : List (String × String)) :
    ∀ (acc : List (String × String)) (t : String),
      tagVal (ps.foldl (fun a q => updateAssoc a q.1 q.2) acc) t
        = match lookupLast ps t with
          | some v => some v
          | none => tagVal acc t := by
  induction ps with
  | nil => intro acc t; rfl
  | cons q rest ih =>
    intro acc t
    simp only [List.foldl, lookupLast]
    rw [ih]
    cases h : lookupLast rest t with
    | some v => simp
    | none =>
      simp only []
      rw [tagVal_updateAssoc]
      by_cases hq : q.1 = t <;> simp [hq]

/-- C5: decoding the concatenation of well-formed `TAG ++ LEN ++ VALUE`
blocks recovers exactly the pair sequence's tag map, for any number of
pairs, and a repeated tag reads back as its last occurrence's value. -/
theorem tlv_round_trip (ps : List (String × String)) (hwf : wfPairs ps) :
    tlvRun (encodeTLV ps) (ps.length + 1) ⟨0, []⟩ = some (buildTags ps)
    ∧ ∀ t, tagVal (buildTags ps) t = lookupLast ps t := by
  constructor
  · have h := tlvRun_encode ps [] [] hwf
    simpa [buildTags] using h
  · intro t
    have h := tagVal_buildTags_aux ps [] t
    unfold buildTags
    rw [h]
    cases hl : lookupLast ps t <;> simp [tagVal]

/-- Witness for C5 on a three-pair sequence with a duplicated tag `00`:
the decoded map holds the last occurrence's value `"ZZ"`. -/
theorem tlv_round_trip_witness :
    tlvRun (encodeTLV [("00", "01"), ("51", "ABC"), ("00", "ZZ")]) 4 ⟨0, []⟩
      = some (buildTags [("00", "01"), ("51", "ABC"), ("00", "ZZ")])
    ∧ tagVal (buildTags [("00", "01"), ("51", "ABC"), ("00", "ZZ")]) "00"
      = lookupLast [("00", "01"), ("51", "ABC"), ("00", "ZZ")] "00" := by
  have h := tlv_round_trip [("00", "01"), ("51", "ABC"), ("00", "ZZ")]
    (by unfold wfPairs; decide)
  exact ⟨h.1, h.2 "00"⟩

example : buildTags [("00", "01"), ("51", "ABC"), ("00", "ZZ")]
    = [("00", "ZZ"), ("51", "ABC")] := by decide

/-! ## Claim C1: the NMID fallback chain -/

/-- A successful run had positive fuel. -/
theorem tlvRun_pos {p : List Char} {n : Nat} {s : TlvState}
    {tags : List (String × String)} (h : tlvRun p n s = some tags) : 0 < n := by
  cases n with
  | zero => simp [tlvRun] at h
  | succ n => exact Nat.succ_pos n

/-- The empty payload decodes to the empty tag map with any positive
fuel. -/
theorem tlvRun_empty (n : Nat) (hn : 0 < n) : tlvRun [] n ⟨0, []⟩ = some [] := by
  cases n with
  | zero => omega
  | succ n => rfl

/-- The NMID fallback of the code (`nmidOf`, assembled from the two
strategy blocks and the regex) computes what the specification's
fallback-chain wording (`nmidChainSpec`) prescribes, for the tag map the
top-level loop produced. -/
theorem nmidChainSpec_eq_nmidOf (fuel : Nat) (p : String) (tags : List (String × String))
    (htop : tlvRun p.data fuel ⟨0, []⟩ = some tags) :
    nmidChainSpec fuel p = nmidOf fuel p tags := by
  have hfuel : 0 < fuel := tlvRun_pos htop
  have hnil : tlvRun ("" : String).data fuel ⟨0, []⟩ = some [] := tlvRun_empty fuel hfuel
  have htail :
      (match tlvRun ((tagVal tags "62").getD "").data fuel ⟨0, []⟩ with
       | none => none
       | some sub62 =>
         match jsGetTruthy sub62 "07" with
         | some v => if startsWithID v then some (some v) else some (firstIdMatch p.data)
         | none => some (firstIdMatch p.data))
      = (match nmidStrat2 fuel tags with
         | none => (none : Option (Option String))
         | some (some v) => some (some v)
         | some none => some (firstIdMatch p.data)) := by
    unfold nmidStrat2
    cases h62 : tagVal tags "62" with
    | none => simp [Option.getD, hnil, jsGetTruthy, tagVal]
    | some v =>
      by_cases hv : v = ""
      · subst hv
        simp [Option.getD, hnil, jsGetTruthy, tagVal]
      · simp only [h62, Option.getD_some, if_neg hv]
        cases hrun : tlvRun v.data fuel ⟨0, []⟩ with
        | none => rfl
        | some sub =>
          cases h07 : jsGetTruthy sub "07" with
          | none => simp [h07]
          | some w => by_cases hsw : startsWithID w <;> simp [h07, hsw]
  unfold nmidChainSpec nmidOf nmidStrat1
  rw [htop]
  cases h51 : tagVal tags "51" with
  | none =>
    simpa [h51, Option.getD, hnil, jsGetTruthy, tagVal] using htail
  | some v =>
    by_cases hv : v = ""
    · subst hv
      simpa [h51, Option.getD, hnil, jsGetTruthy, tagVal] using htail
    · simp only [h51, Option.getD_some, if_neg hv]
      cases hrun : tlvRun v.data fuel ⟨0, []⟩ with
      | none => rfl
      | some sub =>
        cases h02 : jsGetTruthy sub "02" with
        | some w => simp [h02]
        | none =>
          cases h03 : jsGetTruthy sub "03" with
          | some w => simp [h02, h03]
          | none => simpa [h02, h03] using htail

/-- C1: for every payload, the `nmid` field of `parseQRIS`'s result is
resolved by the specification's ordered fallback chain (tag 51 sub-tag 02,
else sub-tag 03; else tag 62 sub-tag 07 when it starts with `"ID"`; else
the first `/ID[0-9]{8,15}/` match in the raw payload; else unset; a
sub-tag counts as present only with a non-empty value, matching the
source's truthiness tests).  In particular a tag-51 sub-tag-02 value wins
over a different regex match elsewhere, and a payload with no tag 51/62
containing `"ID987654321"` resolves to that match. -/
theorem parseQRIS_nmid_resolution :
    (∀ (fuel : Nat) (p : String) (d : QRISData),
       parseQRISFuel fuel p = some d → nmidChainSpec fuel p = some d.nmid)
    ∧ Option.map (fun d => d.nmid) (parseQRISFuel 42 "51160212ID12345678909912ID9999999999")
        = some (some "ID1234567890")
    ∧ Option.map (fun d => d.nmid) (parseQRISFuel 42 "9911ID987654321")
        = some (some "ID987654321") := by
  refine ⟨?_, by decide, by decide⟩
  intro fuel p d hd
  unfold parseQRISFuel at hd
  cases htop : tlvRun p.data fuel ⟨0, []⟩ with
  | none => rw [htop] at hd; exact absurd hd (by simp)
  | some tags =>
    rw [htop] at hd
    have hd' : extractFields fuel p tags = some d := hd
    rw [nmidChainSpec_eq_nmidOf fuel p tags htop]
    unfold extractFields at hd'
    cases hnm : nmidOf fuel p tags with
    | none => rw [hnm] at hd'; exact absurd hd' (by simp)
    | some nm =>
      rw [hnm] at hd'
      rw [← Option.some.inj hd']

/-- Witness for C1: the regex-only payload, run through the chain. -/
theorem parseQRIS_nmid_resolution_witness :
    nmidChainSpec 3 "9911ID987654321" = some (some "ID987654321") :=
  parseQRIS_nmid_resolution.1 3 "9911ID987654321"
    { raw := some "9911ID987654321", merchantName := none, nmid := some "ID987654321",
      amount := none } (by decide)

/-! ## Claim C4: unparseable tag-54 amount -/

/-- Counterexample to C4: tag `54` with the non-numeric value `"ABC"` does
not leave `amount` unset — `parseInt('ABC')` is `NaN` and the code renders
it, so `amount` is `"Rp. NaN"`. -/
theorem parseQRIS_amount_nan_counterexample :
    Option.map (fun d => d.amount) (parseQRISFuel 2 "5403ABC") = some (some "Rp. NaN") := by
  decide

/-- C4 as amended: when tag `54` is present with a non-empty value on
which `parseInt` returns `NaN`, `parseQRIS` still returns normally (no
exception) but sets `amount` to `"Rp. NaN"` instead of leaving it
unset. -/
theorem parseQRIS_amount_nan (fuel : Nat) (p : String) (tags : List (String × String))
    (d : QRISData) (v : String)
    (htop : tlvRun p.data fuel ⟨0, []⟩ = some tags)
    (hd : parseQRISFuel fuel p = some d)
    (h54 : tagVal tags "54" = some v) (hv : ¬ v = "")
    (hnan : jsParseIntNoRadix v.data = none) :
    d.amount = some "Rp. NaN" := by
  unfold parseQRISFuel at hd
  rw [htop] at hd
  have hd' : extractFields fuel p tags = some d := hd
  unfold extractFields at hd'
  cases hnm : nmidOf fuel p tags with
  | none => rw [hnm] at hd'; exact absurd hd' (by simp)
  | some nm =>
    rw [hnm] at hd'
    rw [← Option.some.inj hd']
    simp only [h54]
    rw [if_neg hv, hnan]
    rfl

/-- Witness for the amended C4 at the payload `"5403ABC"`. -/
theorem parseQRIS_amount_nan_witness :
    ({ raw := some "5403ABC", merchantName := none, nmid := none,
       amount := some "Rp. NaN" } : QRISData).amount = some "Rp. NaN" :=
  parseQRIS_amount_nan 2 "5403ABC" [("54", "ABC")]
    { raw := some "5403ABC", merchantName := none, nmid := none, amount := some "Rp. NaN" }
    "ABC" (by decide) (by decide) (by decide) (by decide) (by decide)

/-! ## Claim C3: merchant name and amount extraction -/

/-- `takeWhile` keeps a list all of whose elements satisfy the
predicate. -/
theorem takeWhile_all {p : Char → Bool} :
    ∀ cs : List Char, (∀ c ∈ cs, p c = true) → cs.takeWhile p = cs := by
  intro cs h
  induction cs with
  | nil => rfl
  | cons a l ih =>
    rw [List.takeWhile_cons, h a (List.mem_cons_self _ _)]
    simp only [if_true]
    rw [ih (fun c hc => h c (List.mem_cons_of_mem _ hc))]

/-- `parseInt` with no radix on a non-empty all-digit string is exact: the
string's decimal value. -/
theorem jsParseIntNoRadix_digits (cs : List Char) (hne : cs ≠ [])
    (hd : ∀ c ∈ cs, isDigitCh c = true) :
    jsParseIntNoRadix cs = some ((digitsVal cs : Nat) : Int) := by
  cases cs with
  | nil => exact absurd rfl hne
  | cons c rest =>
    have hc := hd c (List.mem_cons_self _ _)
    have h48 : 48 ≤ c.toNat ∧ c.toNat ≤ 57 := by simpa [isDigitCh] using hc
    obtain ⟨h1, h2⟩ := h48
    have hws : isJsWs c = false := by
      simp only [isJsWs, Bool.or_eq_false_iff, decide_eq_false_iff_not]
      omega
    have h45 : ¬ c.toNat = 45 := by omega
    have h43 : ¬ c.toNat = 43 := by omega
    have htake : (c :: rest).takeWhile isDigitCh = c :: rest := takeWhile_all _ hd
    have hcore : parseIntCore (c :: rest) = some (digitsVal (c :: rest)) := by
      have hpd : parseDigits (c :: rest) = some (digitsVal (c :: rest)) := by
        unfold parseDigits
        rw [htake]
      cases rest with
      | nil => exact hpd
      | cons c1 rest2 =>
        have hc1 := hd c1 (List.mem_cons_of_mem _ (List.mem_cons_self _ _))
        have h148 : 48 ≤ c1.toNat ∧ c1.toNat ≤ 57 := by simpa [isDigitCh] using hc1
        have hnotx : ¬ (c.toNat = 48 ∧ (c1.toNat = 120 ∨ c1.toNat = 88)) := by omega
        have hpic : parseIntCore (c :: c1 :: rest2)
            = if c.toNat = 48 ∧ (c1.toNat = 120 ∨ c1.toNat = 88) then parseHexDigits rest2
              else parseDigits (c :: c1 :: rest2) := rfl
        rw [hpic, if_neg hnotx]
        exact hpd
    unfold jsParseIntNoRadix
    rw [List.dropWhile_cons, hws]
    simp [h45, h43, hcore]

/-- `toLocaleString('id-ID')` of a natural number embedded in the
`parseInt` result type. -/
theorem toLocaleStringID_ofNat (n : Nat) :
    toLocaleStringID (some (n : Int)) = groupThousandsRepr n := by
  have h : toLocaleStringID (some (n : Int))
      = if (n : Int) < 0 then "-" ++ groupThousandsRepr (n : Int).natAbs
        else groupThousandsRepr (n : Int).toNat := rfl
  rw [h, if_neg (by omega), Int.toNat_natCast]

/-- C3: `merchantName` is tag `59`'s value exactly when that tag is
present with a non-empty value; `amount` is unset when tag `54` is absent,
and for a present all-digit value (within `parseInt`'s exact integer
range) it is `"Rp. "` followed by the value thousands-grouped with `"."`;
in particular `"150000"` renders as `"Rp. 150.000"`. -/
theorem parseQRIS_name_amount :
    (∀ (fuel : Nat) (p : String) (tags : List (String × String)) (d : QRISData),
       tlvRun p.data fuel ⟨0, []⟩ = some tags → parseQRISFuel fuel p = some d →
       d.merchantName = jsGetTruthy tags "59"
       ∧ (tagVal tags "54" = none → d.amount = none)
       ∧ (∀ v, tagVal tags "54" = some v → v.data ≠ [] →
           (∀ c ∈ v.data, isDigitCh c = true) → v.length ≤ 15 →
           d.amount = some ("Rp. " ++ groupThousandsRepr (digitsVal v.data))))
    ∧ Option.map (fun d => d.amount) (parseQRISFuel 3 "5406150000")
        = some (some "Rp. 150.000") := by
  refine ⟨?_, by decide⟩
  intro fuel p tags d htop hd
  unfold parseQRISFuel at hd
  rw [htop] at hd
  have hd' : extractFields fuel p tags = some d := hd
  unfold extractFields at hd'
  cases hnm : nmidOf fuel p tags with
  | none => rw [hnm] at hd'; exact absurd hd' (by simp)
  | some nm =>
    rw [hnm] at hd'
    rw [← Option.some.inj hd']
    refine ⟨rfl, ?_, ?_⟩
    · intro h54
      simp only [h54]
    · intro v h54 hvne hdig hlen
      have hvempty : ¬ v = "" := by
        intro hv
        rw [hv] at hvne
        exact hvne rfl
      simp only [h54]
      rw [if_neg hvempty, jsParseIntNoRadix_digits v.data hvne hdig, toLocaleStringID_ofNat]

/-- Witness for C3 at `"5910MERCHANT A"` (merchant name) and
`"5406150000"` (amount formatting). -/
theorem parseQRIS_name_amount_witness :
    ({ raw := some "5910MERCHANT A", merchantName := some "MERCHANT A",
       nmid := none, amount := none } : QRISData).merchantName
      = jsGetTruthy [("59", "MERCHANT A")] "59"
    ∧ ({ raw := some "5406150000", merchantName := none,
         nmid := none, amount := some "Rp. 150.000" } : QRISData).amount
      = some ("Rp. " ++ groupThousandsRepr (digitsVal "150000".data)) := by
  constructor
  · exact (parseQRIS_name_amount.1 3 "5910MERCHANT A" [("59", "MERCHANT A")]
      { raw := some "5910MERCHANT A", merchantName := some "MERCHANT A",
        nmid := none, amount := none } (by decide) (by decide)).1
  · exact (parseQRIS_name_amount.1 3 "5406150000" [("54", "150000")]
      { raw := some "5406150000", merchantName := none,
        nmid := none, amount := some "Rp. 150.000" } (by decide) (by decide)).2.2
      "150000" (by decide) (by decide) (by decide) (by decide)

/-! ## Claim C10: empty tag values behave as absent -/

/-- C10: every presence test in the extraction is a JS truthiness test, so
a tag decoded with declared length `00` (value `""`) is treated exactly as
an absent tag: `merchantName` and `amount` stay unset, an empty tag `51`
or `62` leaves its NMID strategy unresolved, an empty sub-tag `02` falls
through to sub-tag `03`, an empty sub-tag `07` leaves strategy 2
unresolved, and with both strategies unresolved the chain continues to the
raw-payload regex. -/
theorem parseQRIS_empty_value_absent :
    ∀ (fuel : Nat) (p : String) (tags : List (String × String)) (d : QRISData),
      tlvRun p.data fuel ⟨0, []⟩ = some tags → parseQRISFuel fuel p = some d →
      (tagVal tags "59" = some "" → d.merchantName = none)
      ∧ (tagVal tags "54" = some "" → d.amount = none)
      ∧ (tagVal tags "51" = some "" → nmidStrat1 fuel tags = some none)
      ∧ (tagVal tags "62" = some "" → nmidStrat2 fuel tags = some none)
      ∧ (∀ v sub, tagVal tags "51" = some v → tlvRun v.data fuel ⟨0, []⟩ = some sub →
           tagVal sub "02" = some "" → nmidStrat1 fuel tags = some (jsGetTruthy sub "03"))
      ∧ (∀ v sub, tagVal tags "62" = some v → tlvRun v.data fuel ⟨0, []⟩ = some sub →
           tagVal sub "07" = some "" → nmidStrat2 fuel tags = some none)
      ∧ (nmidStrat1 fuel tags = some none → nmidStrat2 fuel tags = some none →
           d.nmid = firstIdMatch p.data) := by
  intro fuel p tags d htop hd
  have hfuel : 0 < fuel := tlvRun_pos htop
  unfold parseQRISFuel at hd
  rw [htop] at hd
  have hd' : extractFields fuel p tags = some d := hd
  unfold extractFields at hd'
  cases hnm : nmidOf fuel p tags with
  | none => rw [hnm] at hd'; exact absurd hd' (by simp)
  | some nm =>
    rw [hnm] at hd'
    have hrec := Option.some.inj hd'
    refine ⟨?_, ?_, ?_, ?_, ?_, ?_, ?_⟩
    · intro h59
      rw [← hrec]
      simp [jsGetTruthy, h59]
    · intro h54
      rw [← hrec]
      simp only [h54]
      rfl
    · intro h51
      unfold nmidStrat1
      rw [h51]
      rfl
    · intro h62
      unfold nmidStrat2
      rw [h62]
      rfl
    · intro v sub h51 hrun h02
      by_cases hv : v = ""
      · subst hv
        rw [tlvRun_empty fuel hfuel] at hrun
        have hsub : sub = [] := (Option.some.inj hrun).symm
        subst hsub
        simp [nmidStrat1, h51, jsGetTruthy, tagVal]
      · have h02' : jsGetTruthy sub "02" = none := by simp [jsGetTruthy, h02]
        cases h03 : jsGetTruthy sub "03" <;>
          simp [nmidStrat1, h51, hv, hrun, h02', h03]
    · intro v sub h62 hrun h07
      by_cases hv : v = ""
      · simp [nmidStrat2, h62, hv]
      · have h07' : jsGetTruthy sub "07" = none := by simp [jsGetTruthy, h07]
        simp [nmidStrat2, h62, hv, hrun, h07']
    · intro hs1 hs2
      rw [← hrec]
      unfold nmidOf at hnm
      rw [hs1, hs2] at hnm
      have := Option.some.inj hnm
      simp only []
      exact this.symm

/-- Witness for C10 on a payload whose tags `59` and `54` are declared
with length `00` and whose tag-51 sub-tag `02` is empty: both output
fields stay unset and the NMID falls through to sub-tag `03`. -/
theorem parseQRIS_empty_value_absent_witness :
    ({ raw := some "511402000306ABC12359005400", merchantName := none,
       nmid := some "ABC123", amount := none } : QRISData).merchantName = none
    ∧ ({ raw := some "511402000306ABC12359005400", merchantName := none,
         nmid := some "ABC123", amount := none } : QRISData).amount = none
    ∧ nmidStrat1 6 [("51", "02000306ABC123"), ("59", ""), ("54", "")]
        = some (jsGetTruthy [("02", ""), ("03", "ABC123")] "03") := by
  have h := parseQRIS_empty_value_absent 6 "511402000306ABC12359005400"
    [("51", "02000306ABC123"), ("59", ""), ("54", "")]
    { raw := some "511402000306ABC12359005400", merchantName := none,
      nmid := some "ABC123", amount := none }
    (by decide) (by decide)
  exact ⟨h.1 (by decide), h.2.1 (by decide),
    h.2.2.2.2.1 "02000306ABC123" [("02", ""), ("03", "ABC123")] (by decide) (by decide)
      (by decide)⟩

/-- Witness for C2 at the everywhere-failing oracle. -/
theorem scanQRCode_strategy_order_witness :
    scanQRCode (fun _ => none) = cascadeSpec (fun _ => none) :=
  scanQRCode_strategy_order.1 (fun _ => none)
